import Mathlib

/-!
Shallow embedding of the `dariah_topics` preprocessing and postprocessing
modules (dariah_topics/preprocessing.py, dariah_topics/postprocessing.py),
together with theorems settling the specification claims.

Conventions of the embedding:
* Tokens and document labels are `String`s; a tokenized document is a
  `List String`; a tokenized corpus is a `List (List String)`.
* A pandas `DataFrame` holding a document-term matrix is modelled
  column-wise: a list of row labels plus a list of columns, each column a
  name paired with the cell values down the rows (see `DTMatrix`).  Counts
  are `Nat`; the `fillna(0)` step of the builder is reflected by storing
  the token count directly (a pandas `NaN` cell arises exactly where the
  token does not occur in the document, and `NaN`-skipping column sums
  coincide with sums of the counts).
* The pinned pandas 0.22.0 `DataFrame.append` used by the builder forms
  the combined columns as the existing columns followed by the new
  columns sorted lexicographically (`Index.difference` sorts); the model
  reproduces this.
* `Series.sort_values` / `np.argsort` perform an ascending sort.  The
  pinned numpy 1.14.2 default quicksort runs a plain stable insertion
  sort whenever the array has at most `SMALL_QUICKSORT + 1 = 16`
  elements (the partition loop only fires above that size), and is
  unstable beyond it; the model uses Mathlib's stable
  `List.insertionSort`, and every theorem whose conclusion depends on
  the order among ties is restricted to the ≤ 16 regime where this is
  exactly the program's sort.  (The matrix builder's sum sort is used
  only for conclusions that are independent of tie order, or on
  concrete inputs inside the regime.)
-/

/-- Occurrence count of token `t` in a tokenized document, as in Python's
`collections.Counter`. -/
def tokenCount (t : String) (doc : List String) : Nat :=
  doc.count t

/-- `collections.Counter(tokenized_document)` as an association list:
keys in first-occurrence order, each mapped to its occurrence count. -/
def counter (doc : List String) : List (String × Nat) :=
  doc.eraseDups.map (fun t => (t, tokenCount t doc))

/-- Code-point-wise lexicographic strict comparison of character lists:
the order Python uses on `str` values. -/
def lexLtChars : List Char → List Char → Bool
  | [], [] => false
  | [], _ :: _ => true
  | _ :: _, [] => false
  | a :: as, b :: bs =>
      if a.toNat < b.toNat then true
      else if b.toNat < a.toNat then false
      else lexLtChars as bs

/-- Non-strict lexicographic comparison of strings by code points. -/
def strLeb (a b : String) : Bool :=
  !(lexLtChars b.toList a.toList)

/-- Lexicographic sorting of strings, as performed by pandas
`Index.difference` (`safe_sort`) on the new column labels. -/
def sortStrings (l : List String) : List String :=
  List.insertionSort (fun a b => strLeb a b = true) l

/-- Column-wise model of a pandas document-term matrix `DataFrame`:
row labels, and columns as (column label, cells down the rows). -/
structure DTMatrix where
  rowLabels : List String
  cols : List (String × List Nat)
deriving DecidableEq, Repr

/-- Sum of a column's cells: the pandas `DataFrame.sum()` entry for that
column (`NaN`-skipping, so equal to the sum of the stored counts). -/
def colSum (c : String × List Nat) : Nat :=
  c.2.sum

/-- The column order produced by repeatedly appending the per-document
`Counter` rows with pandas 0.22 `DataFrame.append`: existing columns
first, then the document's new tokens sorted lexicographically. -/
def appendColumns (zipped : List (List String × String)) : List String :=
  zipped.foldl
    (fun acc d =>
      acc ++ sortStrings (((counter d.1).map Prod.fst).filter
        (fun t => decide (t ∉ acc))))
    []

/-- `preprocessing._create_small_corpus_model`: zip the corpus with the
labels (Python `zip` truncates to the shorter), append one `Counter` row
per document, reorder the columns by `sum().sort_values(ascending=False)`
(stable ascending sort, then reversed), and `fillna(0)`. -/
def _create_small_corpus_model (tokenized_corpus : List (List String))
    (document_labels : List String) : DTMatrix :=
  let zipped := List.zip tokenized_corpus document_labels
  let colOrder := appendColumns zipped
  let cols := colOrder.map (fun c => (c, zipped.map (fun d => tokenCount c d.1)))
  let sortedCols :=
    (List.insertionSort (fun a b => colSum a ≤ colSum b) cols).reverse
  ⟨zipped.map Prod.snd, sortedCols⟩

/-- Modelled from the spec: the `Token2Id` append-only mapping type used by
`add_token2id`, whose defining module is not among the supplied source
files (only `preprocessing.py`, `postprocessing.py`, `visualization.py`
are present).  Per the spec it is a bijective token-to-identifier mapping
with identifiers assigned in strictly increasing insertion order starting
above any previously assigned id. -/
structure Token2Id where
  entries : List (String × Nat)
deriving DecidableEq, Repr

/-- Number of tokens in the mapping. -/
def Token2Id.size (m : Token2Id) : Nat :=
  m.entries.length

/-- Largest identifier assigned so far (0 when empty). -/
def Token2Id.maxId (m : Token2Id) : Nat :=
  m.entries.foldl (fun acc p => max acc p.2) 0

/-- Modelled from the spec: `add_token2id` inserts a token with the next
identifier above any previously assigned one; adding a token already
present is an error and the mapping is never overwritten. -/
def add_token2id (m : Token2Id) (token : String) : Except String Token2Id :=
  if m.entries.any (fun p => p.1 == token) then
    Except.error "token already present in Token2Id mapping"
  else
    Except.ok ⟨m.entries ++ [(token, m.maxId + 1)]⟩

/-- The value returned by `create_document_term_matrix` as described by its
docstring: either a single dense matrix, or (for the documented
large-corpus mode) a matrix together with document-id and type-id
mappings. -/
inductive CreateDTMResult where
  | small : DTMatrix → CreateDTMResult
  | large : DTMatrix → Token2Id → Token2Id → CreateDTMResult
deriving DecidableEq, Repr

/-- `preprocessing.create_document_term_matrix`: the body ignores the
`large_corpus` flag and unconditionally returns
`_create_small_corpus_model(tokenized_corpus, document_labels)`. -/
def create_document_term_matrix (tokenized_corpus : List (List String))
    (document_labels : List String) (large_corpus : Bool := false) :
    CreateDTMResult :=
  CreateDTMResult.small (_create_small_corpus_model tokenized_corpus document_labels)

/-- Maximum cell value of a column, the pandas `max()` entry
(0 for an empty column, which never satisfies `== 1`). -/
def colMax (c : String × List Nat) : Nat :=
  c.2.foldr max 0

/-- `preprocessing.find_hapax_legomena`: the labels of the columns whose
maximum equals 1 (`document_term_matrix.loc[:, document_term_matrix.max() == 1]
.columns.tolist()`).  The `type_ids` parameter is not used by the body. -/
def find_hapax_legomena (document_term_matrix : DTMatrix)
    (type_ids : Option Token2Id := none) : List String :=
  ((document_term_matrix.cols.filter (fun c => colMax c == 1)).map Prod.fst)

/-- `preprocessing.find_stopwords`: the labels of the first
`most_frequent_tokens` columns
(`document_term_matrix.iloc[:, :most_frequent_tokens].columns.tolist()`).
The `type_ids` parameter is not used by the body. -/
def find_stopwords (document_term_matrix : DTMatrix)
    (most_frequent_tokens : Nat := 100)
    (type_ids : Option Token2Id := none) : List String :=
  ((document_term_matrix.cols.take most_frequent_tokens).map Prod.fst)

/-- `preprocessing._remove_features_from_small_corpus_model`: restrict
`features` to tokens among the matrix columns, then `drop` those columns
(`axis=1`); rows are untouched. -/
def _remove_features_from_small_corpus_model (document_term_matrix : DTMatrix)
    (features : List String) : DTMatrix :=
  let present := features.filter
    (fun t => decide (t ∈ document_term_matrix.cols.map Prod.fst))
  ⟨document_term_matrix.rowLabels,
    document_term_matrix.cols.filter (fun c => decide (c.1 ∉ present))⟩

/-- The value `remove_features` is documented to return: a cleaned matrix
or a cleaned tokenized corpus. -/
inductive RemoveResult where
  | matrix : DTMatrix → RemoveResult
  | corpus : List (List String) → RemoveResult
deriving DecidableEq, Repr

/-- `preprocessing.remove_features`: the body unconditionally calls
`_remove_features_from_small_corpus_model(document_term_matrix, features)`;
when `document_term_matrix` is `None` (corpus mode), evaluating
`document_term_matrix.columns` raises `AttributeError`, modelled as
`Except.error`.  `tokenized_corpus` and `type_ids` are never consulted. -/
def remove_features (features : List String)
    (document_term_matrix : Option DTMatrix := none)
    (tokenized_corpus : Option (List (List String)) := none)
    (type_ids : Option Token2Id := none) : Except String RemoveResult :=
  match document_term_matrix with
  | some m =>
      Except.ok (RemoveResult.matrix (_remove_features_from_small_corpus_model m features))
  | none =>
      Except.error "AttributeError: NoneType object has no attribute columns"

/-- The Unicode letter class `\p{L}`, restricted to the ASCII fragment
reached by the inputs considered (the default tokenizer pattern is applied
to lowercased ASCII text in the claims). -/
def isLchar (c : Char) : Bool :=
  c.isAlpha

/-- The Unicode punctuation class `\p{P}`, restricted to its ASCII members
(codes of `! " # % & ' ( ) * , - . / : ; ? @ [ \ ] _` and the two braces). -/
def isPchar (c : Char) : Bool :=
  [33, 34, 35, 37, 38, 39, 40, 41, 42, 44, 45, 46, 47,
   58, 59, 63, 64, 91, 92, 93, 95, 123, 125].contains c.toNat

/-- One attempt of the compiled pattern `\p{L}+\p{P}?\p{L}+` at the head of
`s`, with the backtracking semantics of the `regex` module: the leading
`\p{L}+` greedily takes the whole letter run; `\p{P}?` then takes one
punctuation character provided at least one letter follows (else it
backtracks to empty, and the run must have length ≥ 2 so that both `\p{L}+`
groups can be fed from it).  Returns the matched token and the remainder
of the input, or `none` when no match starts at the head. -/
def matchAt (s : List Char) : Option (List Char × List Char) :=
  let ls := s.takeWhile isLchar
  let rest := s.dropWhile isLchar
  let withPunct : Option (List Char × List Char) :=
    match rest with
    | p :: rest2 =>
        if isPchar p then
          let ls2 := rest2.takeWhile isLchar
          let rest3 := rest2.dropWhile isLchar
          if ls2.length ≥ 1 then some (ls ++ p :: ls2, rest3) else none
        else none
    | [] => none
  if ls.length ≥ 1 then
    match withPunct with
    | some r => some r
    | none => if ls.length ≥ 2 then some (ls, rest) else none
  else none

/-- The scan performed by `regex.finditer`: try a match at each position,
emit it and resume after its end, otherwise advance one character.  The
fuel argument starts at the input length, which suffices since every step
consumes at least one character. -/
def scanTokens : Nat → List Char → List (List Char)
  | 0, _ => []
  | _ + 1, [] => []
  | fuel + 1, c :: cs =>
      match matchAt (c :: cs) with
      | some (tok, rest) => tok :: scanTokens fuel rest
      | none => scanTokens fuel cs

/-- `preprocessing.tokenize`: lowercase the document when `lower` is set
(the default), then emit every match of the default pattern
`\p{L}+\p{P}?\p{L}+` in left-to-right order. -/
def tokenize (document : String) (lower : Bool := true) : List String :=
  let chars := if lower then document.toList.map Char.toLower else document.toList
  (scanTokens chars.length chars).map (fun t => String.mk t)

/-- The ascending comparison used by `np.argsort` on an index-tagged weight
list: compare by weight only. -/
def valLe (a b : Nat × ℚ) : Prop :=
  a.2 ≤ b.2

instance : DecidableRel valLe := fun a b => inferInstanceAs (Decidable (a.2 ≤ b.2))

/-- `np.argsort(topic_distribution)` over the index-tagged weights: an
ascending sort by weight.  For arrays of at most 16 elements the pinned
numpy 1.14.2 quicksort never partitions and runs a plain stable insertion
sort, which this definition is exactly; for longer arrays numpy's
quicksort is unstable, so only conclusions independent of the order among
equal weights (or restricted to length ≤ 16) are claimed about it.
Weights are modelled as rationals: the claims only concern the ordering
of the floating-point values. -/
def ldaArgsort (w : List ℚ) : List (Nat × ℚ) :=
  List.insertionSort valLe w.enum

/-- The descending topic order produced by
`np.array(vocabulary)[np.argsort(topic_distribution)][:-num_keys-1:-1]`
before slicing: the reversal of the ascending argsort. -/
def ldaTopicOrder (w : List ℚ) : List (Nat × ℚ) :=
  (ldaArgsort w).reverse

/-- The per-topic row built by `postprocessing._show_lda_topics`: index the
vocabulary array by the argsorted positions, then slice
`[:-num_keys-1:-1]` (reverse, keep the first `num_keys`).  Numpy's fancy
indexing raises `IndexError` as soon as any index is out of range, which
happens exactly when the weight vector is longer than the vocabulary
(the argsort indices are `0 .. len(w) - 1`); the spec treats this as an
unrecovered precondition error, modelled as `Except.error`.  Under the
length guard every index is in range, so `getD`'s fallback is inert. -/
def topicKeys (vocabulary : List String) (topic_distribution : List ℚ)
    (num_keys : Nat) : Except String (List String) :=
  if topic_distribution.length ≤ vocabulary.length then
    Except.ok ((((ldaArgsort topic_distribution).map
        (fun p => vocabulary.getD p.1 "")).reverse).take num_keys)
  else
    Except.error "IndexError: index out of bounds"

/-- The lexicographic order on (position, weight) pairs that
characterises a stable ascending argsort: ascending weight, ties by
ascending position. -/
def lexLe (a b : Nat × ℚ) : Prop :=
  a.2 < b.2 ∨ (a.2 = b.2 ∧ a.1 ≤ b.1)

instance : DecidableRel lexLe :=
  fun a b => decidable_of_iff (a.2 < b.2 ∨ (a.2 = b.2 ∧ a.1 ≤ b.1)) Iff.rfl

instance : IsTotal (Nat × ℚ) lexLe where
  total a b := by
    rcases lt_trichotomy a.2 b.2 with h | h | h
    · exact Or.inl (Or.inl h)
    · rcases Nat.le_total a.1 b.1 with hn | hn
      · exact Or.inl (Or.inr ⟨h, hn⟩)
      · exact Or.inr (Or.inr ⟨h.symm, hn⟩)
    · exact Or.inr (Or.inl h)

instance : IsTrans (Nat × ℚ) lexLe where
  trans a b c hab hbc := by
    rcases hab with h1 | ⟨e1, n1⟩
    · rcases hbc with h2 | ⟨e2, _⟩
      · exact Or.inl (h1.trans h2)
      · exact Or.inl (e2 ▸ h1)
    · rcases hbc with h2 | ⟨e2, n2⟩
      · exact Or.inl (e1 ▸ h2)
      · exact Or.inr ⟨e1.trans e2, n1.trans n2⟩

instance : IsTotal (String × List Nat) (fun a b => colSum a ≤ colSum b) where
  total a b := Nat.le_total (colSum a) (colSum b)

instance : IsTrans (String × List Nat) (fun a b => colSum a ≤ colSum b) where
  trans _ _ _ h1 h2 := Nat.le_trans h1 h2

/-! ### Helper lemmas -/

theorem zip_take_take {α β : Type} (a : List α) (b : List β) :
    List.zip (a.take b.length) (b.take a.length) = List.zip a b := by
  induction a generalizing b with
  | nil => simp
  | cons x xs ih =>
      cases b with
      | nil => simp
      | cons y ys => simp [List.zip_cons_cons, ih]

theorem fst_le_of_mem_enumFrom {α : Type} {l : List α} {n : Nat} {b : Nat × α}
    (h : b ∈ l.enumFrom n) : n ≤ b.1 := by
  induction l generalizing n with
  | nil => simp [List.enumFrom] at h
  | cons x xs ih =>
      rcases List.mem_cons.mp h with h | h
      · exact h ▸ Nat.le_refl n
      · exact Nat.le_of_succ_le (ih h)

theorem enumFrom_pairwise_fst_lt {α : Type} (l : List α) (n : Nat) :
    (l.enumFrom n).Pairwise (fun a b => a.1 < b.1) := by
  induction l generalizing n with
  | nil => simp [List.enumFrom]
  | cons x xs ih =>
      refine List.Pairwise.cons ?_ (ih (n + 1))
      intro b hb
      exact Nat.lt_of_lt_of_le (Nat.lt_succ_self n) (fst_le_of_mem_enumFrom hb)

theorem orderedInsert_valLe_eq_lexLe (a : Nat × ℚ) (l : List (Nat × ℚ))
    (h : ∀ b ∈ l, a.1 ≤ b.1) :
    List.orderedInsert valLe a l = List.orderedInsert lexLe a l := by
  induction l with
  | nil => rfl
  | cons b t ih =>
      have hab : a.1 ≤ b.1 := h b (List.mem_cons_self b t)
      have hiff : valLe a b ↔ lexLe a b := by
        unfold valLe lexLe
        constructor
        · intro hle
          rcases lt_or_eq_of_le hle with hlt | heq
          · exact Or.inl hlt
          · exact Or.inr ⟨heq, hab⟩
        · intro hl
          rcases hl with hlt | ⟨heq, _⟩
          · exact le_of_lt hlt
          · exact le_of_eq heq
      rw [List.orderedInsert, List.orderedInsert]
      by_cases hv : valLe a b
      · rw [if_pos hv, if_pos (hiff.mp hv)]
      · rw [if_neg hv, if_neg (fun hl => hv (hiff.mpr hl)),
          ih (fun c hc => h c (List.mem_cons_of_mem b hc))]

theorem insertionSort_valLe_eq_lexLe (l : List (Nat × ℚ))
    (h : l.Pairwise (fun a b => a.1 ≤ b.1)) :
    List.insertionSort valLe l = List.insertionSort lexLe l := by
  induction l with
  | nil => rfl
  | cons a t ih =>
      rcases List.pairwise_cons.mp h with ⟨ha, ht⟩
      rw [List.insertionSort, List.insertionSort, ih ht]
      apply orderedInsert_valLe_eq_lexLe
      intro b hb
      exact ha b ((List.perm_insertionSort lexLe t).mem_iff.mp hb)

theorem ldaTopicOrder_pairwise (w : List ℚ) :
    (ldaTopicOrder w).Pairwise
      (fun a b => b.2 < a.2 ∨ (b.2 = a.2 ∧ b.1 < a.1)) := by
  have hpw : (w.enum).Pairwise (fun a b : Nat × ℚ => a.1 < b.1) :=
    enumFrom_pairwise_fst_lt w 0
  have hle : (w.enum).Pairwise (fun a b : Nat × ℚ => a.1 ≤ b.1) :=
    hpw.imp (fun h => Nat.le_of_lt h)
  have hsortEq : ldaArgsort w = List.insertionSort lexLe w.enum :=
    insertionSort_valLe_eq_lexLe w.enum hle
  have hperm : (ldaTopicOrder w).Perm w.enum :=
    (List.reverse_perm _).trans (List.perm_insertionSort valLe w.enum)
  have hflip : (ldaTopicOrder w).Pairwise (fun a b => lexLe b a) := by
    unfold ldaTopicOrder
    rw [hsortEq, List.pairwise_reverse]
    exact (List.sorted_insertionSort lexLe w.enum).imp (fun h => h)
  have hne : (ldaTopicOrder w).Pairwise (fun a b : Nat × ℚ => a.1 ≠ b.1) := by
    have h1 : (w.enum).Pairwise (fun a b : Nat × ℚ => a.1 ≠ b.1) :=
      hpw.imp (fun h => Nat.ne_of_lt h)
    exact (hperm.pairwise_iff (fun h e => h e.symm)).mpr h1
  refine (hflip.and hne).imp ?_
  intro a b hab
  rcases hab with ⟨hl | ⟨heq, hble⟩, hne'⟩
  · exact Or.inl hl
  · exact Or.inr ⟨heq, Nat.lt_of_le_of_ne hble (Ne.symm hne')⟩

theorem dtm_cols_sums_pairwise_ge (l : List (String × List Nat)) :
    (((List.insertionSort (fun a b => colSum a ≤ colSum b) l).reverse).map
        colSum).Pairwise (fun a b => a ≥ b) := by
  rw [List.pairwise_map, List.pairwise_reverse]
  exact (List.sorted_insertionSort _ l).imp (fun h => h)

/-! ### Claims -/

/-- C1: the claim says a `large_corpus=True` call returns three values
(sparse matrix plus a document-id and a type-id mapping) and never only the
single dense DataFrame.  The body of `create_document_term_matrix` ignores
`large_corpus` entirely and always returns the single dense matrix built by
`_create_small_corpus_model`, contradicting the function's own doctest
(`document_term_matrix, document_ids, type_ids = create_document_term_matrix(..., True)`).
This theorem evaluates the code at the doctest's own input. -/
theorem claim_C1_code_evaluation :
    create_document_term_matrix
      [["this", "is", "document", "one"], ["this", "is", "document", "two"]]
      ["document_one", "document_two"] true
      = CreateDTMResult.small (_create_small_corpus_model
          [["this", "is", "document", "one"], ["this", "is", "document", "two"]]
          ["document_one", "document_two"]) := rfl

/-- C2 counterexample: with 2 documents and 1 label the claim demands a
length-mismatch error, but the code produces the same matrix as for the
truncated one-document corpus, and that matrix has the single row `d1` —
so the call silently truncates instead of failing. -/
theorem claim_C2_counterexample :
    create_document_term_matrix [["a"], ["b"]] ["d1"] false
      = create_document_term_matrix [["a"]] ["d1"] false
    ∧ (_create_small_corpus_model [["a"], ["b"]] ["d1"]).rowLabels = ["d1"] :=
  ⟨rfl, rfl⟩

/-- C2 (amended): `create_document_term_matrix` raises no length-mismatch
error when the corpus and label lengths differ; Python's `zip` silently
truncates both inputs to the shorter length, so the result coincides with
the call on the truncated inputs, and the number of rows is the minimum of
the two lengths. -/
theorem claim_C2_amended :
    ∀ (corpus : List (List String)) (labels : List String) (flag : Bool),
    create_document_term_matrix corpus labels flag
      = create_document_term_matrix (corpus.take labels.length)
          (labels.take corpus.length) flag
    ∧ (_create_small_corpus_model corpus labels).rowLabels.length
        = min corpus.length labels.length := by
  intro corpus labels flag
  constructor
  · show CreateDTMResult.small _ = CreateDTMResult.small _
    unfold _create_small_corpus_model
    rw [zip_take_take]
  · show (List.zip corpus labels |>.map Prod.snd).length = _
    simp [List.length_zip]

/-- C3: on the docstring corpus, the dense matrix has rows
`document_one, document_two` and columns ordered
`this, is, document, two, one`, with each cell the token's count in that
document and 0 where the token is absent. -/
theorem claim_C3 :
    create_document_term_matrix
      [["this", "is", "document", "one"], ["this", "is", "document", "two"]]
      ["document_one", "document_two"] false
      = CreateDTMResult.small
          ⟨["document_one", "document_two"],
           [("this", [1, 1]), ("is", [1, 1]), ("document", [1, 1]),
            ("two", [0, 1]), ("one", [1, 0])]⟩ := by
  decide

/-- C5: the claim says corpus-mode `remove_features` (feature list plus
tokenized corpus, no matrix) filters the corpus.  The body unconditionally
invokes the matrix path, so with `document_term_matrix=None` it evaluates
`None.columns` and raises `AttributeError` — contradicting the function's
own doctest `list(remove_features(features, tokenized_corpus=tokenized_corpus))
== [['is', 'a', 'document']]`.  This theorem evaluates the code at the
doctest's input. -/
theorem claim_C5_code_evaluation :
    remove_features ["this"] none (some [["this", "is", "a", "document"]]) none
      = Except.error "AttributeError: NoneType object has no attribute columns" :=
  rfl

/-- C8: tokenizing `"This is 1 example text."` with the default pattern and
default lowering yields exactly `["this", "is", "example", "text"]`:
single-character and purely numeric tokens are excluded, characters are
lowercased. -/
theorem claim_C8 :
    tokenize "This is 1 example text." true = ["this", "is", "example", "text"] := by
  rfl

/-- C9: `add_token2id` is strictly append-only — after a successful
insertion the mapping's size has grown by exactly one, and every later
attempt to add the same token is an error (the functional model returns
`Except.error`, leaving the successfully built mapping untouched). -/
theorem claim_C9 :
    ∀ (m : Token2Id) (t : String) (m' : Token2Id),
    add_token2id m t = Except.ok m' →
    m'.size = m.size + 1 ∧ ∃ e, add_token2id m' t = Except.error e := by
  intro m t m' h
  unfold add_token2id at h
  by_cases hc : m.entries.any (fun p => p.1 == t)
  · simp [hc] at h
  · simp only [hc, if_false, Bool.false_eq_true] at h
    injection h with h
    subst h
    have hmem : (Token2Id.mk (m.entries ++ [(t, m.maxId + 1)])).entries.any
        (fun p => p.1 == t) = true := by
      simp [List.any_append]
    exact ⟨by simp [Token2Id.size],
           "token already present in Token2Id mapping",
           by unfold add_token2id; simp [hmem]⟩

/-- C9 witness: inserting `"a"` into the empty mapping yields the
singleton mapping of size one, and re-adding `"a"` errors. -/
theorem claim_C9_witness :
    (Token2Id.mk [("a", 1)]).size = (Token2Id.mk []).size + 1
    ∧ ∃ e, add_token2id ⟨[("a", 1)]⟩ "a" = Except.error e :=
  claim_C9 ⟨[]⟩ "a" ⟨[("a", 1)]⟩ rfl

/-- C10: `find_stopwords` and `find_hapax_legomena` never consult their
`type_ids` argument — for any matrix, threshold, and any two `type_ids`
values, the results coincide. -/
theorem claim_C10 :
    ∀ (document_term_matrix : DTMatrix) (n : Nat) (t1 t2 : Option Token2Id),
    find_stopwords document_term_matrix n t1 = find_stopwords document_term_matrix n t2
    ∧ find_hapax_legomena document_term_matrix t1
        = find_hapax_legomena document_term_matrix t2 :=
  fun _ _ _ _ => ⟨rfl, rfl⟩

/-- C4: for every corpus with a matching label list, the dense matrix
returned by `create_document_term_matrix` has non-increasing column sums
left to right: the builder sorts the columns by ascending total frequency
and reverses. -/
theorem claim_C4 :
    ∀ (corpus : List (List String)) (labels : List String),
    corpus.length = labels.length →
    ∀ m : DTMatrix,
    create_document_term_matrix corpus labels false = CreateDTMResult.small m →
    (m.cols.map colSum).Pairwise (fun a b => a ≥ b) := by
  intro corpus labels _ m hm
  unfold create_document_term_matrix at hm
  injection hm with hm
  subst hm
  exact dtm_cols_sums_pairwise_ge _

/-- C4 witness: the docstring corpus instantiates C4; its column sums
`[2, 2, 2, 1, 1]` are non-increasing. -/
theorem claim_C4_witness :
    (((_create_small_corpus_model
        [["this", "is", "document", "one"], ["this", "is", "document", "two"]]
        ["document_one", "document_two"]).cols).map colSum).Pairwise
      (fun a b => a ≥ b) :=
  claim_C4 [["this", "is", "document", "one"], ["this", "is", "document", "two"]]
    ["document_one", "document_two"] rfl _ rfl

/-- C6: matrix-mode `remove_features` silently ignores feature tokens that
are not matrix columns (the result only depends on the features that are
present, and no error is possible), and it is idempotent: removing the
same feature list twice equals removing it once. -/
theorem claim_C6 :
    ∀ (m : DTMatrix) (features : List String),
    _remove_features_from_small_corpus_model m features
      = _remove_features_from_small_corpus_model m
          (features.filter (fun t => decide (t ∈ m.cols.map Prod.fst)))
    ∧ _remove_features_from_small_corpus_model
        (_remove_features_from_small_corpus_model m features) features
      = _remove_features_from_small_corpus_model m features := by
  intro m features
  constructor
  · unfold _remove_features_from_small_corpus_model
    dsimp only
    congr 1
    apply List.filter_congr
    intro c _
    rw [decide_eq_decide]
    apply not_congr
    simp only [List.mem_filter, decide_eq_true_eq]
    tauto
  · unfold _remove_features_from_small_corpus_model
    dsimp only
    congr 1
    apply List.filter_eq_self.mpr
    intro c hc
    rcases List.mem_filter.mp hc with ⟨hcm, hcp⟩
    simp only [decide_eq_true_eq] at hcp ⊢
    intro hc2
    rcases List.mem_filter.mp hc2 with ⟨hcf, _⟩
    exact hcp (List.mem_filter.mpr
      ⟨hcf, by simp only [decide_eq_true_eq]
               exact List.mem_map_of_mem Prod.fst hcm⟩)

/-- C7 counterexample: with vocabulary `["a", "b"]`, equal weights
`[1, 1]` and `num_keys = 2`, the claim's tie-break (lower index first)
predicts `["a", "b"]`, but the code — at this size numpy's argsort is an
ascending stable insertion sort, followed by reversal — produces
`["b", "a"]`. -/
theorem claim_C7_counterexample :
    topicKeys ["a", "b"] [1, 1] 2 = Except.ok ["b", "a"]
    ∧ topicKeys ["a", "b"] [1, 1] 2 ≠ Except.ok ["a", "b"] := by
  have h : topicKeys ["a", "b"] [1, 1] 2 = Except.ok ["b", "a"] := by
    show Except.ok _ = _
    congr 1
  refine ⟨h, ?_⟩
  intro hc
  rw [h] at hc
  injection hc with hc
  exact absurd hc (by decide)

/-- C7 (amended): for the array-based model, when the topic's weight
vector has at most 16 entries — the regime in which numpy 1.14.2's
default argsort runs a plain stable insertion sort, so the model is
exactly the program's sort — and the vocabulary is at least as long as
the weight vector (otherwise numpy raises `IndexError`, an unrecovered
precondition), `_show_lda_topics` selects for each topic the `num_keys`
tokens of highest weight in descending weight order, but when two tokens
have equal weight the token with the HIGHER positional index is ranked
first: the code reverses a stable ascending argsort, so among equal
weights the reversal flips the positional order.  The produced order is a
permutation of all (index, weight) pairs, sorted strictly by descending
weight with ties by descending index, and `topicKeys` is its
`num_keys`-prefix mapped through the vocabulary.  (For longer weight
vectors numpy's quicksort is unstable and no tie order is claimed.) -/
theorem claim_C7_amended :
    ∀ (vocabulary : List String) (w : List ℚ) (num_keys : Nat),
    w.length ≤ 16 →
    w.length ≤ vocabulary.length →
    topicKeys vocabulary w num_keys
      = Except.ok (((ldaTopicOrder w).map
          (fun p => vocabulary.getD p.1 "")).take num_keys)
    ∧ (ldaTopicOrder w).Perm w.enum
    ∧ (ldaTopicOrder w).Pairwise
        (fun a b => b.2 < a.2 ∨ (b.2 = a.2 ∧ b.1 < a.1)) := by
  intro vocab w k _ hvocab
  refine ⟨?_, ?_, ldaTopicOrder_pairwise w⟩
  · unfold topicKeys ldaTopicOrder
    rw [if_pos hvocab, List.map_reverse]
  · exact (List.reverse_perm _).trans (List.perm_insertionSort valLe w.enum)

/-- C7 witness: vocabulary `["a", "b"]` with the tied weights `[1, 1]`
satisfies both hypotheses (2 ≤ 16 and 2 ≤ 2) and instantiates the amended
claim. -/
theorem claim_C7_witness :
    topicKeys ["a", "b"] [(1 : ℚ), 1] 2
      = Except.ok (((ldaTopicOrder [(1 : ℚ), 1]).map
          (fun p => (["a", "b"] : List String).getD p.1 "")).take 2)
    ∧ (ldaTopicOrder [(1 : ℚ), 1]).Perm (([(1 : ℚ), 1] : List ℚ).enum)
    ∧ (ldaTopicOrder [(1 : ℚ), 1]).Pairwise
        (fun a b => b.2 < a.2 ∨ (b.2 = a.2 ∧ b.1 < a.1)) :=
  claim_C7_amended ["a", "b"] [1, 1] 2 (by decide) (by decide)

